import Mathlib

/-!
Verification development for the dawikk-scan HUB protocol bridge.

The model is a shallow embedding of the queue-based bridge translation unit
(`ScanBridge::Engine::Impl`: `sendCommand`, `engineLoop`, `processCommand`,
the per-command handlers, `waitReady`) together with the pipe-based C entry
point `scan_stdin_write`.  The external Scan engine (move generation, search,
the `var` parameter store, the `hub::Scanner` tokenizer) is consumed by the
bridge as an opaque library; it is modelled by an `Oracle` record of
uninterpreted functions, and every theorem quantifies over the oracle, so the
theorems hold for every possible behaviour of the external engine.
Exceptions thrown by oracle calls are modelled explicitly, distinguishing the
three classes the bridge's catch clauses distinguish (`Bad_Input`, other
`std::exception`s, and exceptions caught only by `catch (...)`); a handler
returns its final state, the `sendMessage` events emitted so far, and the
exception escaping it, if any.  Real time in `waitReady` is abstracted into a
count of 100 ms polling intervals, and each `status_.load()` consumes the
next entry of an observation stream.
-/

namespace DawikkScan

/-- Session status values, mirroring the `ScanStatus` enum of
`scan_bridge.h` (`SCAN_STATUS_STOPPED` .. `SCAN_STATUS_ERROR`). -/
inductive ScanStatus
  | stopped
  | initializing
  | ready
  | thinking
  | error
deriving DecidableEq, Repr

/-- Exception classes distinguished by the bridge's catch clauses:
`Bad_Input` (a `std::exception` subclass), any other `std::exception`, and
exceptions not derived from `std::exception`, which only `catch (...)`
matches. -/
inductive ExcKind
  | badInput
  | stdExc
  | otherExc
deriving DecidableEq, Repr

/-- Whether a `catch (const std::exception&)` clause catches this kind. -/
def ExcKind.isStd : ExcKind → Bool
  | .otherExc => false
  | _ => true

/-- Observable effects of command processing: `sendMessage` output lines,
invocations of the oracle `search`, and `var::set` calls with their
arguments recorded verbatim. -/
inductive Event
  | msg (line : String)
  | searchCall
  | varSetCall (pname pvalue : String)
deriving DecidableEq, Repr

/-- The `Search_Input` fields assigned by the go handler. -/
structure SearchInput where
  move : Bool
  book : Bool
  input : Bool
  hubOutput : Bool
  ponder : Bool
deriving DecidableEq, Repr

/-- The `Search_Output` fields the go handler reads; `none` models
`move::None`. -/
structure SearchOutput (Mv : Type) where
  move : Option Mv
  answer : Option Mv

/-- A scanned command line.  The `hub::Scanner` tokenizer lives in the
external engine sources, so commands enter the model already split into the
command name (`get_command`) and the ordered `get_pair` name/value
sequence; an empty name models `scan.eos()` on the bare line. -/
structure Command where
  name : String
  pairs : List (String × String)
deriving DecidableEq, Repr

/-- The external Scan engine as consumed by the bridge.  Functions that can
throw in C++ return `Except ExcKind` (or an `Option ExcKind` when the
bridge ignores the returned value); `what` gives the `e.what()` text used
in error messages, and `varBook`/`varBB` are the `var::Book`/`var::BB`
flags read by the init handler. -/
structure Oracle (Pos Mv : Type) where
  posFromHub : String → Except ExcKind Pos
  moveFromHub : String → Pos → Except ExcKind Mv
  isLegal : Mv → Pos → Bool
  succ : Pos → Option Mv → Pos
  moveToHub : Mv → Pos → String
  quickMove : Pos → Option Mv
  search : Pos → SearchInput → Except ExcKind (SearchOutput Mv)
  startPos : Pos
  startStr : String
  parse : String → Command
  what : ExcKind → String
  varBook : Bool
  varBB : Bool
  varSetExc : String → String → Option ExcKind
  varUpdateExc : Option ExcKind
  bitInitExc : Option ExcKind
  bookInitExc : Option ExcKind
  bbInitExc : Option ExcKind
  evalInitExc : Option ExcKind
  ttSetSizeExc : Option ExcKind
  ttClearExc : Option ExcKind

/-- State of `Engine::Impl` relevant to the claims: the atomic `status_`,
the current `engineGame_` position, and the `shouldStop_` flag. -/
structure EngState (Pos : Type) where
  status : ScanStatus
  pos : Pos
  shouldStop : Bool
deriving DecidableEq, Repr

/-- Result of one handler body: final state, events emitted so far in
order, and the exception escaping the handler, if any. -/
abbrev HRes (Pos : Type) := EngState Pos × List Event × Option ExcKind

/-- Whitespace as skipped by `std::stringstream` extraction. -/
def isWS (c : Char) : Bool := c == ' ' || c == '\t' || c == '\n' || c == '\r'

def wordsAux : List Char → List Char → List String
  | [], acc => if acc.isEmpty then [] else [String.mk acc.reverse]
  | c :: cs, acc =>
    if isWS c then
      if acc.isEmpty then wordsAux cs [] else String.mk acc.reverse :: wordsAux cs []
    else wordsAux cs (c :: acc)

/-- Token split performed by `std::stringstream ss(moves); while (ss >> arg)`. -/
def words (s : String) : List String := wordsAux s.data []

/-- Identification line sent by the hub handler. -/
def idLine : String := "id name=Scan version=3.1 author=\"Fabien Letouzey\" country=France"

/-- Parameter catalogue lines sent by the hub handler, in source order. -/
def paramLines : List String :=
  [ "param name=variant value=normal type=enum values=\"normal killer bt frisian losing\"",
    "param name=book value=true type=bool",
    "param name=book-ply value=4 type=int min=0 max=20",
    "param name=book-margin value=4 type=int min=0 max=100",
    "param name=threads value=1 type=int min=1 max=16",
    "param name=tt-size value=24 type=int min=16 max=30",
    "param name=bb-size value=5 type=int min=0 max=7" ]

def waitLine : String := "wait"

/-- `Engine::Impl::handleHubCommand`: identification, parameter catalogue,
`wait`; no state change. -/
def handleHubCommand {Pos : Type} (st : EngState Pos) : HRes Pos :=
  (st, (idLine :: paramLines ++ [waitLine]).map Event.msg, none)

/-- Effect sequencing inside a try block: stop at the first escaping
exception, keeping the events emitted up to that point. -/
def seqE (a b : List Event × Option ExcKind) : List Event × Option ExcKind :=
  match a with
  | (ev, some e) => (ev, some e)
  | (ev, none) => (ev ++ b.1, b.2)

/-- An oracle call performed for its effect only. -/
def excStep (x : Option ExcKind) : List Event × Option ExcKind := ([], x)

/-- The `catch (...)` recovery that disables a failed optional subsystem:
`var::set(n, v); var::update();`.  The `var::set` call is recorded even
when it throws. -/
def disableStep {Pos Mv : Type} (o : Oracle Pos Mv) (n v : String) :
    List Event × Option ExcKind :=
  match o.varSetExc n v with
  | some e => ([Event.varSetCall n v], some e)
  | none =>
    match o.varUpdateExc with
    | some e => ([Event.varSetCall n v], some e)
    | none => ([Event.varSetCall n v], none)

/-- Body of the init handler's try block, in source order: `bit::init`,
`book::init` guarded by `var::Book` with disable-on-failure, `bb::init`
guarded by `var::BB` likewise, `eval_init`, `G_TT.set_size`, and finally
the `ready` message. -/
def initBody {Pos Mv : Type} (o : Oracle Pos Mv) : List Event × Option ExcKind :=
  seqE (excStep o.bitInitExc) <|
  seqE (if o.varBook then
          match o.bookInitExc with
          | some _ => disableStep o "book" "false"
          | none => ([], none)
        else ([], none)) <|
  seqE (if o.varBB then
          match o.bbInitExc with
          | some _ => disableStep o "bb-size" "0"
          | none => ([], none)
        else ([], none)) <|
  seqE (excStep o.evalInitExc) <|
  seqE (excStep o.ttSetSizeExc) ([Event.msg "ready"], none)

/-- `Engine::Impl::handleInitCommand`: run the init body; its outer
`catch (const std::exception&)` converts a std exception into an
`init failed` error message, while other exceptions escape. -/
def handleInitCommand {Pos Mv : Type} (o : Oracle Pos Mv) (st : EngState Pos) : HRes Pos :=
  match initBody o with
  | (ev, none) => (st, ev, none)
  | (ev, some e) =>
    if e.isStd then
      (st, ev ++ [Event.msg ("error message=\"init failed: " ++ o.what e ++ "\"")], none)
    else (st, ev, some e)

/-- Argument scan of the pos handler: `start`, `pos` and `moves` pairs in
order, last occurrence winning, with defaults `pos_hub(pos::Start)` and the
empty move list. -/
def scanPosArgs {Pos Mv : Type} (o : Oracle Pos Mv) (pairs : List (String × String)) :
    String × String :=
  pairs.foldl
    (fun acc p =>
      if p.1 = "start" then (o.startStr, acc.2)
      else if p.1 = "pos" then (p.2, acc.2)
      else if p.1 = "moves" then (acc.1, p.2)
      else acc)
    (o.startStr, "")

/-- The move-application loop of the pos handler: parse each token with
`move::from_hub` (its `Bad_Input` is caught locally, emitting `bad move`
and returning), reject the first parsed move that is not legal (`illegal
move`), and otherwise `Game::add_move`.  Other exception kinds escape the
loop. -/
def applyMoves {Pos Mv : Type} (o : Oracle Pos Mv) :
    Pos → List String → Pos × List Event × Option ExcKind
  | p, [] => (p, [], none)
  | p, tok :: rest =>
    match o.moveFromHub tok p with
    | .error .badInput =>
      (p, [Event.msg ("error message=\"bad move: " ++ tok ++ "\"")], none)
    | .error e => (p, [], some e)
    | .ok mv =>
      if o.isLegal mv p then applyMoves o (o.succ p (some mv)) rest
      else (p, [Event.msg ("error message=\"illegal move: " ++ tok ++ "\"")], none)

/-- `Engine::Impl::handlePosCommand`: scan the arguments, rebuild the game
from `pos_from_hub`, then apply the trailing moves.  The outer catches turn
`Bad_Input` into `bad position` and other std exceptions into
`position error`; exceptions not derived from `std::exception` escape. -/
def handlePosCommand {Pos Mv : Type} (o : Oracle Pos Mv) (st : EngState Pos)
    (pairs : List (String × String)) : HRes Pos :=
  match o.posFromHub (scanPosArgs o pairs).1 with
  | .error .badInput => (st, [Event.msg "error message=\"bad position\""], none)
  | .error .stdExc =>
    (st, [Event.msg ("error message=\"position error: " ++ o.what .stdExc ++ "\"")], none)
  | .error .otherExc => (st, [], some .otherExc)
  | .ok p0 =>
    match applyMoves o p0 (words (scanPosArgs o pairs).2) with
    | (p1, ev, none) => ({st with pos := p1}, ev, none)
    | (p1, ev, some .badInput) =>
      ({st with pos := p1}, ev ++ [Event.msg "error message=\"bad position\""], none)
    | (p1, ev, some .stdExc) =>
      ({st with pos := p1},
       ev ++ [Event.msg ("error message=\"position error: " ++ o.what .stdExc ++ "\"")], none)
    | (p1, ev, some .otherExc) => ({st with pos := p1}, ev, some .otherExc)

/-- Search configuration built by the go handler: `think` is scanned but
unused, `analyze` clears `si.move` and `si.book`, `ponder` sets
`si.ponder`; `si.input` is false and output is handled by the bridge. -/
def goInput (pairs : List (String × String)) : SearchInput :=
  { move := !(pairs.any fun p => p.1 == "analyze")
    book := !(pairs.any fun p => p.1 == "analyze")
    input := false
    hubOutput := false
    ponder := pairs.any fun p => p.1 == "ponder" }

/-- `Engine::Impl::handleGoCommand`: set status to Thinking, run the search
synchronously, fall back to `quick_move` for the move and the ponder
answer, emit the `done` line, and set status back to Ready.  The handler's
`catch (const std::exception&)` emits `search error` and also restores
Ready; other exceptions escape with status still Thinking. -/
def handleGoCommand {Pos Mv : Type} (o : Oracle Pos Mv) (st : EngState Pos)
    (pairs : List (String × String)) : HRes Pos :=
  match o.search st.pos (goInput pairs) with
  | .ok so =>
    let mv : Option Mv :=
      match so.move with
      | none => o.quickMove st.pos
      | some m => some m
    let answer : Option Mv :=
      match mv, so.answer with
      | some m, none => o.quickMove (o.succ st.pos (some m))
      | _, a => a
    let line :=
      "done"
        ++ (match mv with
            | some m => " move=" ++ o.moveToHub m st.pos
            | none => "")
        ++ (match answer with
            | some a => " ponder=" ++ o.moveToHub a (o.succ st.pos mv)
            | none => "")
    ({st with status := .ready}, [Event.searchCall, Event.msg line], none)
  | .error e =>
    if e.isStd then
      ({st with status := .ready},
       [Event.searchCall,
        Event.msg ("error message=\"search error: " ++ o.what e ++ "\"")], none)
    else ({st with status := .thinking}, [Event.searchCall], some e)

/-- `Engine::Impl::handleLevelCommand` is a stub in this bridge variant. -/
def handleLevelCommand {Pos : Type} (st : EngState Pos) : HRes Pos :=
  (st, [Event.msg "info message=\"level command processed\""], none)

/-- `Engine::Impl::handleStopCommand`: set status to Ready. -/
def handleStopCommand {Pos : Type} (st : EngState Pos) : HRes Pos :=
  ({st with status := .ready}, [], none)

/-- `Engine::Impl::handleNewGameCommand`: `G_TT.clear()` then
`engineGame_.clear()`; a std exception becomes a `new game error` message. -/
def handleNewGameCommand {Pos Mv : Type} (o : Oracle Pos Mv) (st : EngState Pos) : HRes Pos :=
  match o.ttClearExc with
  | some e =>
    if e.isStd then
      (st, [Event.msg ("error message=\"new game error: " ++ o.what e ++ "\"")], none)
    else (st, [], some e)
  | none => ({st with pos := o.startPos}, [], none)

/-- Argument scan of the set-param handler: `name` and `value` pairs, last
occurrence winning. -/
def scanNameValue (pairs : List (String × String)) : String × String :=
  pairs.foldl
    (fun acc p =>
      if p.1 = "name" then (p.2, acc.2)
      else if p.1 = "value" then (acc.1, p.2)
      else acc)
    ("", "")

/-- `Engine::Impl::handleSetParamCommand`: missing name is an error;
otherwise the raw name and value are handed to `var::set` followed by
`var::update`, with a std exception reported as `invalid parameter`. -/
def handleSetParamCommand {Pos Mv : Type} (o : Oracle Pos Mv) (st : EngState Pos)
    (pairs : List (String × String)) : HRes Pos :=
  if (scanNameValue pairs).1 = "" then
    (st, [Event.msg "error message=\"missing parameter name\""], none)
  else
    match o.varSetExc (scanNameValue pairs).1 (scanNameValue pairs).2 with
    | some e =>
      if e.isStd then
        (st, [Event.varSetCall (scanNameValue pairs).1 (scanNameValue pairs).2,
              Event.msg ("error message=\"invalid parameter: " ++ o.what e ++ "\"")], none)
      else (st, [Event.varSetCall (scanNameValue pairs).1 (scanNameValue pairs).2], some e)
    | none =>
      match o.varUpdateExc with
      | some e =>
        if e.isStd then
          (st, [Event.varSetCall (scanNameValue pairs).1 (scanNameValue pairs).2,
                Event.msg ("error message=\"invalid parameter: " ++ o.what e ++ "\"")], none)
        else (st, [Event.varSetCall (scanNameValue pairs).1 (scanNameValue pairs).2], some e)
      | none => (st, [Event.varSetCall (scanNameValue pairs).1 (scanNameValue pairs).2], none)

/-- The `ping` branch of `processCommand`. -/
def handlePingCommand {Pos : Type} (st : EngState Pos) : HRes Pos :=
  (st, [Event.msg "pong"], none)

/-- The `quit` branch of `processCommand`: `shouldStop_.store(true)`. -/
def handleQuitCommand {Pos : Type} (st : EngState Pos) : HRes Pos :=
  ({st with shouldStop := true}, [], none)

/-- Dispatch table of `Engine::Impl::processCommand`, before its outermost
catch clauses, in source order. -/
def dispatch {Pos Mv : Type} (o : Oracle Pos Mv) (st : EngState Pos) (c : Command) : HRes Pos :=
  if c.name = "hub" then handleHubCommand st
  else if c.name = "init" then handleInitCommand o st
  else if c.name = "pos" then handlePosCommand o st c.pairs
  else if c.name = "go" then handleGoCommand o st c.pairs
  else if c.name = "level" then handleLevelCommand st
  else if c.name = "stop" then handleStopCommand st
  else if c.name = "new-game" then handleNewGameCommand o st
  else if c.name = "ping" then handlePingCommand st
  else if c.name = "set-param" then handleSetParamCommand o st c.pairs
  else if c.name = "quit" then handleQuitCommand st
  else (st, [Event.msg ("error message=\"unknown command: " ++ c.name ++ "\"")], none)

/-- Error line produced by the outer catch clauses of `processCommand`. -/
def catchErrLine {Pos Mv : Type} (o : Oracle Pos Mv) (e : ExcKind) : String :=
  if e.isStd then "error message=\"command processing error: " ++ o.what e ++ "\""
  else "error message=\"unknown command processing error\""

/-- One full `Engine::Impl::processCommand` call: the `scan.eos()` check
for an empty line, dispatch, and the outer catch clauses, which emit an
error line, swallow the exception, and leave the state as the handler left
it. -/
def processCommand {Pos Mv : Type} (o : Oracle Pos Mv) (st : EngState Pos) (c : Command) :
    EngState Pos × List Event :=
  if c.name = "" then (st, [Event.msg "error message=\"missing command\""])
  else
    match dispatch o st c with
    | (st1, ev, none) => (st1, ev)
    | (st1, ev, some e) => (st1, ev ++ [Event.msg (catchErrLine o e)])

/-- The queue drain of `Engine::Impl::engineLoop`: one command popped and
dispatched per iteration, stopping when `shouldStop_` is observed.  Returns
the final state and the trace of dispatched commands with the events each
one emitted. -/
def runWorker {Pos Mv : Type} (o : Oracle Pos Mv) :
    EngState Pos → List Command → EngState Pos × List (Command × List Event)
  | st, [] => (st, [])
  | st, c :: rest =>
    if st.shouldStop then (st, [])
    else
      (((runWorker o (processCommand o st c).1 rest).1),
       (c, (processCommand o st c).2) :: (runWorker o (processCommand o st c).1 rest).2)

/-- Acceptance test of `Engine::Impl::sendCommand`: rejected when the
status is Stopped or Error, rejected when the line is empty, otherwise the
line is pushed onto the FIFO queue and `SCAN_SUCCESS` is returned. -/
def sendCommandOk (status : ScanStatus) (line : String) : Bool :=
  if status = .stopped ∨ status = .error then false
  else if line = "" then false
  else true

/-- Queue contents after submitting `lines` in order while the status is
`status` throughout (each push appends at the back of the FIFO). -/
def enqueueAll (status : ScanStatus) : List String → List String
  | [] => []
  | l :: ls =>
    if sendCommandOk status l then l :: enqueueAll status ls else enqueueAll status ls

/-- `Engine::Impl::waitReady`, abstracted over real time.  Each
`status_.load()` consumes the next entry of the observation stream `obs`
(index `k`); every loop iteration sleeps 100 ms, and `fuel` is the number
of sleeps that fit before the deadline — ten per second of timeout.  The
loop condition loads the status, the post-sleep Error check loads it again,
and the final `return` performs one more load. -/
def waitReadyAux (obs : Nat → ScanStatus) : Nat → Nat → Bool
  | 0, k =>
    if obs k = .ready then decide (obs (k + 1) = .ready)
    else decide (obs (k + 1) = .ready)
  | fuel + 1, k =>
    if obs k = .ready then decide (obs (k + 1) = .ready)
    else if obs (k + 1) = .error then false
    else waitReadyAux obs fuel (k + 2)

/-- `waitReady(timeoutSeconds)`: poll every 100 ms until Ready, Error, or
the deadline. -/
def waitReadyModel (obs : Nat → ScanStatus) (timeoutSeconds : Nat) : Bool :=
  waitReadyAux obs (timeoutSeconds * 10) 0

/-- Write calls issued by `scan_stdin_write`: the payload write and the
appended newline write. -/
inductive WriteEvent
  | dataWrite (s : String)
  | nlWrite
deriving DecidableEq, Repr

/-- Whether the C string ends in a newline
(`data[strlen(data) - 1] == '\n'`). -/
def endsWithNl (s : String) : Bool := decide (s.data.getLast? = some '\n')

/-- `scan_stdin_write(data)` with the result of the `write` syscall on the
payload supplied as `wr`: returns 0 immediately when the engine is not
running; otherwise writes the payload, appends a newline write exactly when
the payload write returned a positive count and the payload does not end in
a newline, and returns 1 iff the payload write result was non-negative. -/
def scanStdinWrite (wr : Int) (running : Bool) (data : String) : Nat × List WriteEvent :=
  if running = false then (0, [])
  else
    ((if 0 ≤ wr then 1 else 0),
     WriteEvent.dataWrite data ::
       (if 0 < wr ∧ endsWithNl data = false then [WriteEvent.nlWrite] else []))

/-- Clean application of a list of move tokens from a starting position:
`some` of the resulting position when every token parses and is legal in
sequence, mirroring the successful path of the move loop. -/
def applyAll {Pos Mv : Type} (o : Oracle Pos Mv) : Pos → List String → Option Pos
  | p, [] => some p
  | p, tok :: rest =>
    match o.moveFromHub tok p with
    | .ok mv => if o.isLegal mv p then applyAll o (o.succ p (some mv)) rest else none
    | .error _ => none

/-- The token is rejected at position `p`: `move::from_hub` raises
`Bad_Input`, or the parsed move is not legal. -/
def IllegalAt {Pos Mv : Type} (o : Oracle Pos Mv) (p : Pos) (tok : String) : Prop :=
  o.moveFromHub tok p = .error .badInput
  ∨ ∃ mv, o.moveFromHub tok p = .ok mv ∧ o.isLegal mv p = false

/-- The number of `search` invocations recorded in an event list. -/
def searchCount : List Event → Nat
  | [] => 0
  | Event.searchCall :: t => searchCount t + 1
  | Event.msg _ :: t => searchCount t
  | Event.varSetCall _ _ :: t => searchCount t

/-! ### Concrete oracle instances used by witnesses and counterexamples -/

/-- A benign oracle over trivial position and move types: every call
succeeds and the search returns no move. -/
def oracleA : Oracle Unit Unit where
  posFromHub := fun _ => .ok ()
  moveFromHub := fun _ _ => .ok ()
  isLegal := fun _ _ => true
  succ := fun _ _ => ()
  moveToHub := fun _ _ => "32-28"
  quickMove := fun _ => none
  search := fun _ _ => .ok ⟨none, none⟩
  startPos := ()
  startStr := "Wbbbbbbbbbbbbbbbbbbbbeeeeeeeeeewwwwwwwwwwwwwwwwwwww"
  parse := fun l => ⟨l, []⟩
  what := fun _ => "boom"
  varBook := false
  varBB := false
  varSetExc := fun _ _ => none
  varUpdateExc := none
  bitInitExc := none
  bookInitExc := none
  bbInitExc := none
  evalInitExc := none
  ttSetSizeExc := none
  ttClearExc := none

/-- Oracle whose `eval_init` throws a std exception (critical init
failure). -/
def oracleEvalFail : Oracle Unit Unit :=
  { oracleA with evalInitExc := some .stdExc }

/-- Oracle with the book enabled and `book::init` throwing (non-critical
init failure). -/
def oracleBookFail : Oracle Unit Unit :=
  { oracleA with varBook := true, bookInitExc := some .stdExc }

/-- Oracle whose `G_TT.clear()` throws an exception not derived from
`std::exception`. -/
def oracleTTFail : Oracle Unit Unit :=
  { oracleA with ttClearExc := some .otherExc }

/-- Oracle whose search throws an exception not derived from
`std::exception`. -/
def oracleSearchCrash : Oracle Unit Unit :=
  { oracleA with search := fun _ _ => .error .otherExc }

/-- Oracle over `Nat` positions that counts applied moves: every move
token except `99-99` parses and is legal, and applying a move increments
the position. -/
def oracleMoves : Oracle Nat Nat where
  posFromHub := fun _ => .ok 0
  moveFromHub := fun tok _ => if tok = "99-99" then .error .badInput else .ok 7
  isLegal := fun _ _ => true
  succ := fun p _ => p + 1
  moveToHub := fun _ _ => "32-28"
  quickMove := fun _ => none
  search := fun _ _ => .ok ⟨none, none⟩
  startPos := 0
  startStr := "Wbbbbbbbbbbbbbbbbbbbbeeeeeeeeeewwwwwwwwwwwwwwwwwwww"
  parse := fun l => ⟨l, []⟩
  what := fun _ => "boom"
  varBook := false
  varBB := false
  varSetExc := fun _ _ => none
  varUpdateExc := none
  bitInitExc := none
  bookInitExc := none
  bbInitExc := none
  evalInitExc := none
  ttSetSizeExc := none
  ttClearExc := none

/-- Ready state over the trivial position type. -/
def stReady : EngState Unit := ⟨.ready, (), false⟩

/-- Thinking state over the trivial position type. -/
def stThinking : EngState Unit := ⟨.thinking, (), false⟩

/-! ### Helper lemmas -/

lemma string_data_append (s t : String) : (s ++ t).data = s.data ++ t.data := by
  cases s; cases t; rfl

@[simp] lemma searchCount_nil : searchCount [] = 0 := rfl

@[simp] lemma searchCount_msg (s : String) (t : List Event) :
    searchCount (Event.msg s :: t) = searchCount t := rfl

@[simp] lemma searchCount_var (n v : String) (t : List Event) :
    searchCount (Event.varSetCall n v :: t) = searchCount t := rfl

@[simp] lemma searchCount_search (t : List Event) :
    searchCount (Event.searchCall :: t) = searchCount t + 1 := rfl

@[simp] lemma searchCount_append (a b : List Event) :
    searchCount (a ++ b) = searchCount a + searchCount b := by
  induction a with
  | nil => simp
  | cons e t ih =>
    cases e with
    | msg s => simp [ih]
    | searchCall => simp [ih]; omega
    | varSetCall n v => simp [ih]

lemma searchCount_map_msg (l : List String) : searchCount (l.map Event.msg) = 0 := by
  induction l with
  | nil => rfl
  | cons s t ih => simp [ih]

/-- Reduction of `processCommand` at the go branch of the dispatch table. -/
lemma processCommand_go {Pos Mv : Type} (o : Oracle Pos Mv) (st : EngState Pos)
    (pairs : List (String × String)) :
    processCommand o st ⟨"go", pairs⟩
      = match handleGoCommand o st pairs with
        | (st1, ev, none) => (st1, ev)
        | (st1, ev, some e) => (st1, ev ++ [Event.msg (catchErrLine o e)]) := rfl

/-- Reduction of `processCommand` at the pos branch of the dispatch table. -/
lemma processCommand_pos {Pos Mv : Type} (o : Oracle Pos Mv) (st : EngState Pos)
    (pairs : List (String × String)) :
    processCommand o st ⟨"pos", pairs⟩
      = match handlePosCommand o st pairs with
        | (st1, ev, none) => (st1, ev)
        | (st1, ev, some e) => (st1, ev ++ [Event.msg (catchErrLine o e)]) := rfl

/-- Reduction of `processCommand` at the init branch of the dispatch table. -/
lemma processCommand_init {Pos Mv : Type} (o : Oracle Pos Mv) (st : EngState Pos)
    (pairs : List (String × String)) :
    processCommand o st ⟨"init", pairs⟩
      = match handleInitCommand o st with
        | (st1, ev, none) => (st1, ev)
        | (st1, ev, some e) => (st1, ev ++ [Event.msg (catchErrLine o e)]) := rfl

/-- Reduction of `processCommand` at the set-param branch of the dispatch
table. -/
lemma processCommand_setParam {Pos Mv : Type} (o : Oracle Pos Mv) (st : EngState Pos)
    (pairs : List (String × String)) :
    processCommand o st ⟨"set-param", pairs⟩
      = match handleSetParamCommand o st pairs with
        | (st1, ev, none) => (st1, ev)
        | (st1, ev, some e) => (st1, ev ++ [Event.msg (catchErrLine o e)]) := rfl

lemma handleInit_state {Pos Mv : Type} (o : Oracle Pos Mv) (st : EngState Pos) :
    (handleInitCommand o st).1 = st := by
  unfold handleInitCommand
  rcases h : initBody o with ⟨ev, exc⟩
  cases exc with
  | none => rfl
  | some e => dsimp only; split <;> rfl

lemma handlePos_state {Pos Mv : Type} (o : Oracle Pos Mv) (st : EngState Pos)
    (pairs : List (String × String)) :
    (handlePosCommand o st pairs).1.status = st.status
    ∧ (handlePosCommand o st pairs).1.shouldStop = st.shouldStop := by
  unfold handlePosCommand
  rcases h : o.posFromHub (scanPosArgs o pairs).1 with e | p0
  · cases e <;> exact ⟨rfl, rfl⟩
  · dsimp only
    rcases h2 : applyMoves o p0 (words (scanPosArgs o pairs).2) with ⟨p1, ev, exc⟩
    rcases exc with _ | e
    · exact ⟨rfl, rfl⟩
    · cases e <;> exact ⟨rfl, rfl⟩

lemma handleGo_state {Pos Mv : Type} (o : Oracle Pos Mv) (st : EngState Pos)
    (pairs : List (String × String)) :
    ((handleGoCommand o st pairs).1.status = ScanStatus.ready
      ∨ (handleGoCommand o st pairs).1.status = ScanStatus.thinking)
    ∧ (handleGoCommand o st pairs).1.shouldStop = st.shouldStop
    ∧ (handleGoCommand o st pairs).1.pos = st.pos := by
  unfold handleGoCommand
  rcases h : o.search st.pos (goInput pairs) with e | so
  · dsimp only
    split
    · exact ⟨Or.inl rfl, rfl, rfl⟩
    · exact ⟨Or.inr rfl, rfl, rfl⟩
  · exact ⟨Or.inl rfl, rfl, rfl⟩

lemma handleNewGame_state {Pos Mv : Type} (o : Oracle Pos Mv) (st : EngState Pos) :
    (handleNewGameCommand o st).1.status = st.status
    ∧ (handleNewGameCommand o st).1.shouldStop = st.shouldStop := by
  unfold handleNewGameCommand
  rcases h : o.ttClearExc with _ | e
  · exact ⟨rfl, rfl⟩
  · dsimp only; split <;> exact ⟨rfl, rfl⟩

lemma handleSetParam_state {Pos Mv : Type} (o : Oracle Pos Mv) (st : EngState Pos)
    (pairs : List (String × String)) :
    (handleSetParamCommand o st pairs).1 = st := by
  unfold handleSetParamCommand
  split
  · rfl
  · rcases h : o.varSetExc (scanNameValue pairs).1 (scanNameValue pairs).2 with _ | e
    · rcases h2 : o.varUpdateExc with _ | e2
      · rfl
      · dsimp only; split <;> rfl
    · dsimp only; split <;> rfl

/-- Case eliminator for the dispatch table: to prove a property of
`dispatch o st c` it suffices to prove it of each handler's result. -/
lemma dispatch_cases {Pos Mv : Type} (o : Oracle Pos Mv) (st : EngState Pos) (c : Command)
    (P : HRes Pos → Prop)
    (hhub : P (handleHubCommand st))
    (hinit : P (handleInitCommand o st))
    (hpos : P (handlePosCommand o st c.pairs))
    (hgo : P (handleGoCommand o st c.pairs))
    (hlevel : P (handleLevelCommand st))
    (hstop : P (handleStopCommand st))
    (hng : P (handleNewGameCommand o st))
    (hping : P (handlePingCommand st))
    (hsp : P (handleSetParamCommand o st c.pairs))
    (hquit : c.name = "quit" → P (handleQuitCommand st))
    (hunk : P (st, [Event.msg ("error message=\"unknown command: " ++ c.name ++ "\"")], none)) :
    P (dispatch o st c) := by
  unfold dispatch
  by_cases h1 : c.name = "hub"
  · rw [if_pos h1]; exact hhub
  rw [if_neg h1]
  by_cases h2 : c.name = "init"
  · rw [if_pos h2]; exact hinit
  rw [if_neg h2]
  by_cases h3 : c.name = "pos"
  · rw [if_pos h3]; exact hpos
  rw [if_neg h3]
  by_cases h4 : c.name = "go"
  · rw [if_pos h4]; exact hgo
  rw [if_neg h4]
  by_cases h5 : c.name = "level"
  · rw [if_pos h5]; exact hlevel
  rw [if_neg h5]
  by_cases h6 : c.name = "stop"
  · rw [if_pos h6]; exact hstop
  rw [if_neg h6]
  by_cases h7 : c.name = "new-game"
  · rw [if_pos h7]; exact hng
  rw [if_neg h7]
  by_cases h8 : c.name = "ping"
  · rw [if_pos h8]; exact hping
  rw [if_neg h8]
  by_cases h9 : c.name = "set-param"
  · rw [if_pos h9]; exact hsp
  rw [if_neg h9]
  by_cases h10 : c.name = "quit"
  · rw [if_pos h10]; exact hquit h10
  rw [if_neg h10]
  exact hunk

/-- The dispatch table only ever writes Ready or Thinking into the status
field, and only the quit branch touches `shouldStop_`. -/
lemma dispatch_state {Pos Mv : Type} (o : Oracle Pos Mv) (st : EngState Pos) (c : Command) :
    ((dispatch o st c).1.status = st.status
      ∨ (dispatch o st c).1.status = ScanStatus.ready
      ∨ (dispatch o st c).1.status = ScanStatus.thinking)
    ∧ (c.name ≠ "quit" → (dispatch o st c).1.shouldStop = st.shouldStop) := by
  refine dispatch_cases o st c
    (fun r => (r.1.status = st.status ∨ r.1.status = ScanStatus.ready
        ∨ r.1.status = ScanStatus.thinking)
      ∧ (c.name ≠ "quit" → r.1.shouldStop = st.shouldStop))
    ?_ ?_ ?_ ?_ ?_ ?_ ?_ ?_ ?_ ?_ ?_
  · exact ⟨Or.inl rfl, fun _ => rfl⟩
  · exact ⟨Or.inl (by rw [handleInit_state]), fun _ => by rw [handleInit_state]⟩
  · exact ⟨Or.inl (handlePos_state o st c.pairs).1, fun _ => (handlePos_state o st c.pairs).2⟩
  · exact ⟨Or.inr (handleGo_state o st c.pairs).1, fun _ => (handleGo_state o st c.pairs).2.1⟩
  · exact ⟨Or.inl rfl, fun _ => rfl⟩
  · exact ⟨Or.inr (Or.inl rfl), fun _ => rfl⟩
  · exact ⟨Or.inl (handleNewGame_state o st).1, fun _ => (handleNewGame_state o st).2⟩
  · exact ⟨Or.inl rfl, fun _ => rfl⟩
  · exact ⟨Or.inl (by rw [handleSetParam_state]), fun _ => by rw [handleSetParam_state]⟩
  · intro hq; exact ⟨Or.inl rfl, fun hne => absurd hq hne⟩
  · exact ⟨Or.inl rfl, fun _ => rfl⟩

lemma processCommand_fst {Pos Mv : Type} (o : Oracle Pos Mv) (st : EngState Pos)
    (c : Command) (h : c.name ≠ "") :
    (processCommand o st c).1 = (dispatch o st c).1 := by
  unfold processCommand
  rw [if_neg h]
  rcases hd : dispatch o st c with ⟨st1, ev, exc⟩
  cases exc <;> rfl

lemma processCommand_shouldStop {Pos Mv : Type} (o : Oracle Pos Mv) (st : EngState Pos)
    (c : Command) (h : c.name ≠ "quit") :
    (processCommand o st c).1.shouldStop = st.shouldStop := by
  by_cases hn : c.name = ""
  · unfold processCommand; rw [if_pos hn]
  · rw [processCommand_fst o st c hn]
    exact (dispatch_state o st c).2 h

/-- `processCommand` never writes Error into the status field. -/
lemma processCommand_status {Pos Mv : Type} (o : Oracle Pos Mv) (st : EngState Pos)
    (c : Command) :
    (processCommand o st c).1.status = st.status
    ∨ (processCommand o st c).1.status = ScanStatus.ready
    ∨ (processCommand o st c).1.status = ScanStatus.thinking := by
  by_cases hn : c.name = ""
  · left; unfold processCommand; rw [if_pos hn]
  · rw [processCommand_fst o st c hn]
    exact (dispatch_state o st c).1

lemma searchCount_disableStep {Pos Mv : Type} (o : Oracle Pos Mv) (n v : String) :
    searchCount (disableStep o n v).1 = 0 := by
  unfold disableStep
  rcases o.varSetExc n v with _ | e
  · rcases o.varUpdateExc with _ | e2 <;> rfl
  · rfl

lemma searchCount_seqE (a b : List Event × Option ExcKind)
    (ha : searchCount a.1 = 0) (hb : searchCount b.1 = 0) :
    searchCount (seqE a b).1 = 0 := by
  rcases a with ⟨ev, exc⟩
  cases exc
  · unfold seqE
    dsimp only
    rw [searchCount_append]
    dsimp only at ha
    omega
  · exact ha

lemma searchCount_initBody {Pos Mv : Type} (o : Oracle Pos Mv) :
    searchCount (initBody o).1 = 0 := by
  unfold initBody
  refine searchCount_seqE _ _ rfl
    (searchCount_seqE _ _ ?_
      (searchCount_seqE _ _ ?_
        (searchCount_seqE _ _ rfl (searchCount_seqE _ _ rfl rfl))))
  · split
    · rcases o.bookInitExc with _ | e
      · rfl
      · exact searchCount_disableStep o "book" "false"
    · rfl
  · split
    · rcases o.bbInitExc with _ | e
      · rfl
      · exact searchCount_disableStep o "bb-size" "0"
    · rfl

lemma searchCount_handleInit {Pos Mv : Type} (o : Oracle Pos Mv) (st : EngState Pos) :
    searchCount (handleInitCommand o st).2.1 = 0 := by
  unfold handleInitCommand
  rcases h : initBody o with ⟨ev, exc⟩
  have he : searchCount ev = 0 := by
    have h2 := searchCount_initBody o
    rw [h] at h2
    exact h2
  cases exc
  · exact he
  · dsimp only
    split
    · rw [searchCount_append]; simp [he]
    · exact he

lemma searchCount_applyMoves {Pos Mv : Type} (o : Oracle Pos Mv) :
    ∀ (toks : List String) (p : Pos), searchCount (applyMoves o p toks).2.1 = 0 := by
  intro toks
  induction toks with
  | nil => intro p; rfl
  | cons t ts ih =>
    intro p
    unfold applyMoves
    rcases o.moveFromHub t p with e | mv
    · cases e <;> rfl
    · dsimp only
      split
      · exact ih _
      · rfl

lemma searchCount_handlePos {Pos Mv : Type} (o : Oracle Pos Mv) (st : EngState Pos)
    (pairs : List (String × String)) :
    searchCount (handlePosCommand o st pairs).2.1 = 0 := by
  unfold handlePosCommand
  rcases o.posFromHub (scanPosArgs o pairs).1 with e | p0
  · cases e <;> rfl
  · dsimp only
    rcases h2 : applyMoves o p0 (words (scanPosArgs o pairs).2) with ⟨p1, ev, exc⟩
    have he : searchCount ev = 0 := by
      have h3 := searchCount_applyMoves o (words (scanPosArgs o pairs).2) p0
      rw [h2] at h3
      exact h3
    rcases exc with _ | e
    · exact he
    · cases e <;> simp [searchCount_append, he]

lemma searchCount_handleGo {Pos Mv : Type} (o : Oracle Pos Mv) (st : EngState Pos)
    (pairs : List (String × String)) :
    searchCount (handleGoCommand o st pairs).2.1 = 1 := by
  unfold handleGoCommand
  rcases o.search st.pos (goInput pairs) with e | so
  · dsimp only; split <;> rfl
  · rfl

lemma searchCount_handleSetParam {Pos Mv : Type} (o : Oracle Pos Mv) (st : EngState Pos)
    (pairs : List (String × String)) :
    searchCount (handleSetParamCommand o st pairs).2.1 = 0 := by
  unfold handleSetParamCommand
  split
  · rfl
  · rcases o.varSetExc (scanNameValue pairs).1 (scanNameValue pairs).2 with _ | e
    · rcases o.varUpdateExc with _ | e2
      · rfl
      · dsimp only; split <;> rfl
    · dsimp only; split <;> rfl

lemma searchCount_handleNewGame {Pos Mv : Type} (o : Oracle Pos Mv) (st : EngState Pos) :
    searchCount (handleNewGameCommand o st).2.1 = 0 := by
  unfold handleNewGameCommand
  rcases o.ttClearExc with _ | e
  · rfl
  · dsimp only; split <;> rfl

/-- Each dispatch performs at most one search invocation. -/
lemma dispatch_searchCount_le {Pos Mv : Type} (o : Oracle Pos Mv) (st : EngState Pos)
    (c : Command) : searchCount (dispatch o st c).2.1 ≤ 1 := by
  refine dispatch_cases o st c (fun r => searchCount r.2.1 ≤ 1) ?_ ?_ ?_ ?_ ?_ ?_ ?_ ?_ ?_
    (fun _ => ?_) ?_
  · dsimp only [handleHubCommand]; rw [searchCount_map_msg]; omega
  · dsimp only; rw [searchCount_handleInit]; omega
  · dsimp only; rw [searchCount_handlePos]; omega
  · dsimp only; rw [searchCount_handleGo]
  · simp [searchCount]
  · simp [searchCount]
  · dsimp only; rw [searchCount_handleNewGame]; omega
  · simp [searchCount]
  · dsimp only; rw [searchCount_handleSetParam]; omega
  · simp [searchCount]
  · simp [searchCount]

lemma processCommand_searchCount_le {Pos Mv : Type} (o : Oracle Pos Mv) (st : EngState Pos)
    (c : Command) : searchCount (processCommand o st c).2 ≤ 1 := by
  by_cases hn : c.name = ""
  · unfold processCommand
    rw [if_pos hn]
    simp [searchCount]
  · unfold processCommand
    rw [if_neg hn]
    rcases hd : dispatch o st c with ⟨st1, ev, exc⟩
    have hle : searchCount ev ≤ 1 := by
      have h2 := dispatch_searchCount_le o st c
      rw [hd] at h2
      exact h2
    cases exc
    · exact hle
    · dsimp only
      rw [searchCount_append]
      simp [searchCount]
      omega

lemma processCommand_go_searchCount {Pos Mv : Type} (o : Oracle Pos Mv) (st : EngState Pos)
    (pairs : List (String × String)) :
    searchCount (processCommand o st ⟨"go", pairs⟩).2 = 1 := by
  rw [processCommand_go]
  rcases hg : handleGoCommand o st pairs with ⟨st1, ev, exc⟩
  have he : searchCount ev = 1 := by
    have h2 := searchCount_handleGo o st pairs
    rw [hg] at h2
    exact h2
  cases exc
  · exact he
  · dsimp only
    rw [searchCount_append]
    simp [searchCount, he]

/-- One non-stopped worker iteration pops the head command and dispatches
it before touching the rest of the queue. -/
lemma runWorker_cons {Pos Mv : Type} (o : Oracle Pos Mv) (st : EngState Pos)
    (c : Command) (rest : List Command) (h : st.shouldStop = false) :
    runWorker o st (c :: rest)
      = ((runWorker o (processCommand o st c).1 rest).1,
         (c, (processCommand o st c).2) :: (runWorker o (processCommand o st c).1 rest).2) := by
  rw [runWorker]
  rw [if_neg (by rw [h]; exact Bool.false_ne_true)]

/-- When no command is `quit`, the worker dispatches the whole queue, in
queue order. -/
lemma runWorker_noQuit {Pos Mv : Type} (o : Oracle Pos Mv) :
    ∀ (cmds : List Command) (st : EngState Pos),
      st.shouldStop = false → (∀ c ∈ cmds, c.name ≠ "quit") →
      (runWorker o st cmds).2.map Prod.fst = cmds := by
  intro cmds
  induction cmds with
  | nil => intro st _ _; rfl
  | cons c rest ih =>
    intro st h0 hq
    rw [runWorker_cons o st c rest h0]
    have h1 : (processCommand o st c).1.shouldStop = false := by
      rw [processCommand_shouldStop o st c (hq c (List.mem_cons_self c rest))]
      exact h0
    dsimp only
    rw [List.map_cons]
    rw [ih (processCommand o st c).1 h1 (fun d hd => hq d (List.mem_cons_of_mem c hd))]

lemma sendCommandOk_eq (status : ScanStatus) (l : String)
    (h1 : status ≠ .stopped) (h2 : status ≠ .error) :
    sendCommandOk status l = decide (l ≠ "") := by
  unfold sendCommandOk
  rw [if_neg (fun h => h.elim h1 h2)]
  by_cases hl : l = ""
  · rw [if_pos hl]; simp [hl]
  · rw [if_neg hl]; simp [hl]

lemma enqueueAll_eq_filter (status : ScanStatus)
    (h1 : status ≠ .stopped) (h2 : status ≠ .error) :
    ∀ lines : List String,
      enqueueAll status lines = lines.filter fun l => decide (l ≠ "") := by
  intro lines
  induction lines with
  | nil => rfl
  | cons l ls ih =>
    rw [enqueueAll, sendCommandOk_eq status l h1 h2, List.filter_cons]
    by_cases hl : l = ""
    · simp [hl, ih]
    · simp [hl, ih]

lemma waitReadyAux_true (obs : Nat → ScanStatus) :
    ∀ fuel k, waitReadyAux obs fuel k = true → ∃ j, obs j = ScanStatus.ready := by
  intro fuel
  induction fuel with
  | zero =>
    intro k h
    unfold waitReadyAux at h
    split at h <;> exact ⟨k + 1, of_decide_eq_true h⟩
  | succ n ih =>
    intro k h
    unfold waitReadyAux at h
    split at h
    · exact ⟨k + 1, of_decide_eq_true h⟩
    · split at h
      · exact absurd h Bool.false_ne_true
      · exact ih (k + 2) h

lemma waitReadyAux_never (obs : Nat → ScanStatus)
    (hobs : ∀ j, obs j ≠ ScanStatus.ready) :
    ∀ fuel k, waitReadyAux obs fuel k = false := by
  intro fuel
  induction fuel with
  | zero =>
    intro k
    unfold waitReadyAux
    split <;> simp [hobs (k + 1)]
  | succ n ih =>
    intro k
    unfold waitReadyAux
    split
    · simp [hobs (k + 1)]
    · split
      · rfl
      · exact ih (k + 2)

/-- Applying a cleanly-applying prefix of move tokens commutes with the
move loop: the loop continues from the position the prefix reaches. -/
lemma applyMoves_clean {Pos Mv : Type} (o : Oracle Pos Mv) :
    ∀ (pre : List String) (p p1 : Pos) (suf : List String),
      applyAll o p pre = some p1 →
      applyMoves o p (pre ++ suf) = applyMoves o p1 suf := by
  intro pre
  induction pre with
  | nil =>
    intro p p1 suf h
    have hp : p = p1 := by simpa [applyAll] using h
    rw [List.nil_append, hp]
  | cons t ts ih =>
    intro p p1 suf h
    rw [List.cons_append]
    rw [applyAll] at h
    rcases hm : o.moveFromHub t p with e | mv
    · rw [hm] at h
      dsimp only at h
      exact absurd h (by simp)
    · rw [hm] at h
      dsimp only at h
      by_cases hl : o.isLegal mv p
      · rw [if_pos hl] at h
        have hgoal : applyMoves o p (t :: (ts ++ suf))
            = applyMoves o (o.succ p (some mv)) (ts ++ suf) := by
          simp only [applyMoves]
          rw [hm]
          dsimp only
          rw [if_pos hl]
        rw [hgoal]
        exact ih (o.succ p (some mv)) p1 suf h
      · rw [if_neg hl] at h
        exact absurd h (by simp)

/-- Reaching a rejected token stops the loop at the current position with a
single error message and no escaping exception. -/
lemma applyMoves_illegal {Pos Mv : Type} (o : Oracle Pos Mv) (p : Pos) (tok : String)
    (rest : List String) (h : IllegalAt o p tok) :
    applyMoves o p (tok :: rest)
      = (p, [Event.msg ("error message=\"bad move: " ++ tok ++ "\"")], none)
    ∨ applyMoves o p (tok :: rest)
      = (p, [Event.msg ("error message=\"illegal move: " ++ tok ++ "\"")], none) := by
  rcases h with hb | ⟨mv, hok, hleg⟩
  · left
    simp only [applyMoves]
    rw [hb]
  · right
    simp only [applyMoves]
    rw [hok]
    dsimp only
    rw [if_neg (by simp [hleg])]

lemma scanPosArgs_posMoves {Pos Mv : Type} (o : Oracle Pos Mv) (P M : String) :
    scanPosArgs o [("pos", P), ("moves", M)] = (P, M) := rfl

lemma string_length_append (s t : String) : (s ++ t).length = s.length + t.length := by
  show (s ++ t).data.length = s.data.length + t.data.length
  rw [string_data_append, List.length_append]

/-- The `ready` response line is never equal to an `init failed` error
line, whatever the exception text. -/
lemma ready_ne_initFail (x : String) :
    ("ready" : String) ≠ "error message=\"init failed: " ++ x ++ "\"" := by
  intro h
  have h2 := congrArg String.length h
  rw [string_length_append, string_length_append] at h2
  have e1 : ("ready" : String).length = 5 := rfl
  have e2 : ("error message=\"init failed: " : String).length = 28 := rfl
  have e3 : ("\"" : String).length = 1 := rfl
  rw [e1, e2, e3] at h2
  omega

@[simp] lemma seqE_none (ev : List Event) (b : List Event × Option ExcKind) :
    seqE (ev, none) b = (ev ++ b.1, b.2) := rfl

@[simp] lemma seqE_some (ev : List Event) (e : ExcKind) (b : List Event × Option ExcKind) :
    seqE (ev, some e) b = (ev, some e) := rfl

/-! ### Claim theorems -/

/-- C1 counterexample: with the session state Thinking, dispatching `go`
is not rejected with an InvalidState error — the submission is accepted by
`sendCommand`, exactly one search is started, and the only output is the
`done` line. -/
theorem goWhileThinkingNotRejected :
    sendCommandOk ScanStatus.thinking "go think" = true
    ∧ searchCount (processCommand oracleA stThinking ⟨"go", []⟩).2 = 1
    ∧ (processCommand oracleA stThinking ⟨"go", []⟩).2
        = [Event.searchCall, Event.msg "done"] := by decide

/-- C1 (amended): dispatching `go` is never rejected with an InvalidState
error — `sendCommand` accepts any non-empty line while Thinking and the go
handler runs unconditionally — but at most one search is ever in flight:
every dispatched command performs at most one (a `go` exactly one) search
invocation, run synchronously inside the single worker's dispatch. -/
theorem goDispatchUnchecked (Pos Mv : Type) (o : Oracle Pos Mv) (st : EngState Pos)
    (c : Command) :
    searchCount (processCommand o st c).2 ≤ 1
    ∧ (c.name = "go" → searchCount (processCommand o st c).2 = 1)
    ∧ (∀ line : String, line ≠ "" → sendCommandOk ScanStatus.thinking line = true) := by
  refine ⟨processCommand_searchCount_le o st c, ?_, ?_⟩
  · intro hg
    rcases c with ⟨nm, pairs⟩
    dsimp only at hg
    subst hg
    exact processCommand_go_searchCount o st pairs
  · intro line hline
    unfold sendCommandOk
    rw [if_neg (by rintro (h | h) <;> exact ScanStatus.noConfusion h)]
    rw [if_neg hline]

/-- C1 witness: the amended theorem evaluated at a concrete go dispatch. -/
theorem goDispatchUnchecked_witness :
    searchCount (processCommand oracleA stReady ⟨"go", []⟩).2 = 1 :=
  (goDispatchUnchecked Unit Unit oracleA stReady ⟨"go", []⟩).2.1 rfl

/-- C2: a `pos` command whose trailing move list has its first rejected
token `bad` after a cleanly-applying prefix `pre` applies exactly the
prefix in order, emits a single error at the rejected token, applies no
later move, and leaves the position exactly where the last legal move left
it (no rollback to the pre-command position). -/
theorem posStopsAtFirstIllegalMove (Pos Mv : Type) (o : Oracle Pos Mv) (st : EngState Pos)
    (posStr movesStr bad : String) (pre rest : List String) (p0 p1 : Pos)
    (hpos : o.posFromHub posStr = Except.ok p0)
    (hw : words movesStr = pre ++ bad :: rest)
    (hpre : applyAll o p0 pre = some p1)
    (hbad : IllegalAt o p1 bad) :
    ∃ s, processCommand o st ⟨"pos", [("pos", posStr), ("moves", movesStr)]⟩
          = ({st with pos := p1}, [Event.msg s])
      ∧ (s = "error message=\"bad move: " ++ bad ++ "\""
         ∨ s = "error message=\"illegal move: " ++ bad ++ "\"") := by
  have h1 : handlePosCommand o st [("pos", posStr), ("moves", movesStr)]
      = match applyMoves o p0 (words movesStr) with
        | (p2, ev, none) => ({st with pos := p2}, ev, none)
        | (p2, ev, some .badInput) =>
          ({st with pos := p2}, ev ++ [Event.msg "error message=\"bad position\""], none)
        | (p2, ev, some .stdExc) =>
          ({st with pos := p2},
           ev ++ [Event.msg ("error message=\"position error: " ++ o.what .stdExc ++ "\"")],
           none)
        | (p2, ev, some .otherExc) => ({st with pos := p2}, ev, some .otherExc) := by
    unfold handlePosCommand
    rw [scanPosArgs_posMoves]
    dsimp only
    rw [hpos]
  rw [processCommand_pos, h1, hw, applyMoves_clean o pre p0 p1 (bad :: rest) hpre]
  rcases applyMoves_illegal o p1 bad rest hbad with h2 | h2
  · refine ⟨"error message=\"bad move: " ++ bad ++ "\"", ?_, Or.inl rfl⟩
    rw [h2]
  · refine ⟨"error message=\"illegal move: " ++ bad ++ "\"", ?_, Or.inr rfl⟩
    rw [h2]

/-- C2 witness: `pos pos=W moves="32-28 99-99"` with the move-counting
oracle applies `32-28` (reaching position 1) and stops at `99-99`. -/
theorem posStops_witness :
    ∃ s, processCommand oracleMoves ⟨ScanStatus.ready, 0, false⟩
          ⟨"pos", [("pos", "W"), ("moves", "32-28 99-99")]⟩
        = ({ status := ScanStatus.ready, pos := 1, shouldStop := false }, [Event.msg s])
      ∧ (s = "error message=\"bad move: " ++ "99-99" ++ "\""
         ∨ s = "error message=\"illegal move: " ++ "99-99" ++ "\"") :=
  posStopsAtFirstIllegalMove Nat Nat oracleMoves ⟨ScanStatus.ready, 0, false⟩ "W"
    "32-28 99-99" "99-99" ["32-28"] [] 0 1 rfl (by decide) (by decide) (Or.inl rfl)

/-- C3 counterexample: a critical init failure (`eval_init` throwing a std
exception) leaves the session status unchanged at Ready instead of
transitioning to Error; no `ready` is emitted and an `init failed` error
is. -/
theorem initCriticalFailureKeepsStatus :
    (processCommand oracleEvalFail stReady ⟨"init", []⟩).1.status = ScanStatus.ready
    ∧ Event.msg "ready" ∉ (processCommand oracleEvalFail stReady ⟨"init", []⟩).2
    ∧ (processCommand oracleEvalFail stReady ⟨"init", []⟩).2
        = [Event.msg "error message=\"init failed: boom\""] := by decide

/-- C3 (amended): a failed non-critical subsystem (book or bitbases) is
disabled through `var::set` and init still emits `ready`; a critical
failure (`eval_init` throwing a std exception) emits an `init failed`
error and no `ready`, but the session state is left unchanged — it does
not become Error. -/
theorem initFailurePolicy (Pos Mv : Type) (o : Oracle Pos Mv) (st : EngState Pos)
    (hbit : o.bitInitExc = none)
    (hs1 : o.varSetExc "book" "false" = none)
    (hs2 : o.varSetExc "bb-size" "0" = none)
    (hupd : o.varUpdateExc = none)
    (htt : o.ttSetSizeExc = none) :
    (o.evalInitExc = none →
      (processCommand o st ⟨"init", []⟩).1 = st
      ∧ Event.msg "ready" ∈ (processCommand o st ⟨"init", []⟩).2
      ∧ (o.varBook = true → o.bookInitExc ≠ none →
          Event.varSetCall "book" "false" ∈ (processCommand o st ⟨"init", []⟩).2)
      ∧ (o.varBB = true → o.bbInitExc ≠ none →
          Event.varSetCall "bb-size" "0" ∈ (processCommand o st ⟨"init", []⟩).2))
    ∧ (∀ e, o.evalInitExc = some e → e.isStd = true →
      (processCommand o st ⟨"init", []⟩).1 = st
      ∧ Event.msg "ready" ∉ (processCommand o st ⟨"init", []⟩).2
      ∧ Event.msg ("error message=\"init failed: " ++ o.what e ++ "\"")
          ∈ (processCommand o st ⟨"init", []⟩).2) := by
  have hred : ∀ ev : List Event, initBody o = (ev, none) →
      processCommand o st ⟨"init", []⟩ = (st, ev) := by
    intro ev hev
    rw [processCommand_init]
    unfold handleInitCommand
    rw [hev]
  have hredE : ∀ (ev : List Event) (e : ExcKind), initBody o = (ev, some e) →
      e.isStd = true →
      processCommand o st ⟨"init", []⟩
        = (st, ev ++ [Event.msg ("error message=\"init failed: " ++ o.what e ++ "\"")]) := by
    intro ev e hev hstd
    rw [processCommand_init]
    unfold handleInitCommand
    rw [hev]
    dsimp only
    rw [if_pos hstd]
  have hbookEv : ∃ bev : List Event,
      (if o.varBook then
         match o.bookInitExc with
         | some _ => disableStep o "book" "false"
         | none => ([], none)
       else ([], none)) = (bev, none)
      ∧ (o.varBook = true → o.bookInitExc ≠ none →
          Event.varSetCall "book" "false" ∈ bev)
      ∧ Event.msg "ready" ∉ bev := by
    cases hvb : o.varBook with
    | false =>
      refine ⟨[], ?_, ?_, by simp⟩
      · rw [if_neg Bool.false_ne_true]
      · intro h1; exact absurd h1 Bool.false_ne_true
    | true =>
      rcases hbk : o.bookInitExc with _ | e1
      · refine ⟨[], ?_, ?_, by simp⟩
        · rw [if_pos rfl]
        · intro _ hne; exact absurd rfl hne
      · refine ⟨[Event.varSetCall "book" "false"], ?_, ?_, by simp⟩
        · rw [if_pos rfl]
          unfold disableStep
          rw [hs1, hupd]
        · intro _ _; simp
  have hbbEv : ∃ cev : List Event,
      (if o.varBB then
         match o.bbInitExc with
         | some _ => disableStep o "bb-size" "0"
         | none => ([], none)
       else ([], none)) = (cev, none)
      ∧ (o.varBB = true → o.bbInitExc ≠ none →
          Event.varSetCall "bb-size" "0" ∈ cev)
      ∧ Event.msg "ready" ∉ cev := by
    cases hvb : o.varBB with
    | false =>
      refine ⟨[], ?_, ?_, by simp⟩
      · rw [if_neg Bool.false_ne_true]
      · intro h1; exact absurd h1 Bool.false_ne_true
    | true =>
      rcases hbk : o.bbInitExc with _ | e1
      · refine ⟨[], ?_, ?_, by simp⟩
        · rw [if_pos rfl]
        · intro _ hne; exact absurd rfl hne
      · refine ⟨[Event.varSetCall "bb-size" "0"], ?_, ?_, by simp⟩
        · rw [if_pos rfl]
          unfold disableStep
          rw [hs2, hupd]
        · intro _ _; simp
  obtain ⟨bev, hb1, hb2, hb3⟩ := hbookEv
  obtain ⟨cev, hc1, hc2, hc3⟩ := hbbEv
  constructor
  · intro heval
    have hbody : initBody o = (bev ++ (cev ++ [Event.msg "ready"]), none) := by
      unfold initBody excStep
      rw [hbit, heval, htt, hb1, hc1]
      simp only [seqE_none]
      simp
    rw [hred _ hbody]
    refine ⟨rfl, by simp, ?_, ?_⟩
    · intro h1 h2
      have h3 := hb2 h1 h2
      simp [h3]
    · intro h1 h2
      have h3 := hc2 h1 h2
      simp [h3]
  · intro e heval hstd
    have hbody : initBody o = (bev ++ cev, some e) := by
      unfold initBody excStep
      rw [hbit, heval, hb1, hc1]
      simp only [seqE_none, seqE_some]
      simp
    rw [hredE _ e hbody hstd]
    refine ⟨rfl, ?_, by simp⟩
    simp [List.mem_append, hb3, hc3, ready_ne_initFail (o.what e)]

/-- C3 witness: with the book enabled and `book::init` failing, init
disables the book through `var::set book false` and still emits `ready`. -/
theorem initFailurePolicy_witness :
    Event.msg "ready" ∈ (processCommand oracleBookFail stReady ⟨"init", []⟩).2
    ∧ Event.varSetCall "book" "false"
        ∈ (processCommand oracleBookFail stReady ⟨"init", []⟩).2 :=
  ⟨((initFailurePolicy Unit Unit oracleBookFail stReady rfl rfl rfl rfl rfl).1 rfl).2.1,
   ((initFailurePolicy Unit Unit oracleBookFail stReady rfl rfl rfl rfl rfl).1 rfl).2.2.1
     rfl (by decide)⟩

/-- C4 counterexample: `set-param name=threads value=999` forwards 999
verbatim to `var::set` — the value handed to the parameter store is 999,
never the clamped 16 — and the out-of-range enum value `chess` is likewise
forwarded with no error emitted. -/
theorem setParamForwardsRaw :
    (processCommand oracleA stReady
        ⟨"set-param", [("name", "threads"), ("value", "999")]⟩).2
      = [Event.varSetCall "threads" "999"]
    ∧ Event.varSetCall "threads" "16"
        ∉ (processCommand oracleA stReady
            ⟨"set-param", [("name", "threads"), ("value", "999")]⟩).2
    ∧ (processCommand oracleA stReady
        ⟨"set-param", [("name", "variant"), ("value", "chess")]⟩).2
      = [Event.varSetCall "variant" "chess"] := by decide

/-- C4 (amended): the set-param handler performs no clamping and no enum
validation — the scanned name and value are passed verbatim to the
external `var::set`, the bridge state is unchanged, and when neither
`var::set` nor `var::update` throws, the forwarded call is the only
effect, with no error emitted. -/
theorem setParamVerbatim (Pos Mv : Type) (o : Oracle Pos Mv) (st : EngState Pos)
    (pairs : List (String × String)) (h : (scanNameValue pairs).1 ≠ "") :
    Event.varSetCall (scanNameValue pairs).1 (scanNameValue pairs).2
        ∈ (processCommand o st ⟨"set-param", pairs⟩).2
    ∧ (processCommand o st ⟨"set-param", pairs⟩).1 = st
    ∧ (o.varSetExc (scanNameValue pairs).1 (scanNameValue pairs).2 = none →
        o.varUpdateExc = none →
        (processCommand o st ⟨"set-param", pairs⟩).2
          = [Event.varSetCall (scanNameValue pairs).1 (scanNameValue pairs).2]) := by
  rw [processCommand_setParam]
  unfold handleSetParamCommand
  rw [if_neg h]
  rcases hv : o.varSetExc (scanNameValue pairs).1 (scanNameValue pairs).2 with _ | e
  · rcases hu : o.varUpdateExc with _ | e2
    · exact ⟨by simp, rfl, fun _ _ => rfl⟩
    · dsimp only
      by_cases hstd : e2.isStd = true
      · rw [if_pos hstd]
        exact ⟨by simp, rfl, fun _ h2 => absurd h2 (by simp)⟩
      · rw [if_neg hstd]
        exact ⟨by simp, rfl, fun _ h2 => absurd h2 (by simp)⟩
  · dsimp only
    by_cases hstd : e.isStd = true
    · rw [if_pos hstd]
      exact ⟨by simp, rfl, fun h2 _ => absurd h2 (by simp)⟩
    · rw [if_neg hstd]
      exact ⟨by simp, rfl, fun h2 _ => absurd h2 (by simp)⟩

/-- C4 witness: the amended theorem at a concrete in-range assignment. -/
theorem setParamVerbatim_witness :
    Event.varSetCall "threads" "4"
        ∈ (processCommand oracleA stReady
            ⟨"set-param", [("name", "threads"), ("value", "4")]⟩).2 :=
  (setParamVerbatim Unit Unit oracleA stReady [("name", "threads"), ("value", "4")]
    (by decide)).1

/-- C5 counterexample: a dispatch fault (an exception escaping the
new-game handler) emits a structured error and the worker keeps processing
the next queued command, but the session state stays Ready — it is not
transitioned to Error. -/
theorem faultKeepsWorkerAlive :
    (processCommand oracleTTFail stReady ⟨"new-game", []⟩).1.status = ScanStatus.ready
    ∧ (processCommand oracleTTFail stReady ⟨"new-game", []⟩).2
        = [Event.msg "error message=\"unknown command processing error\""]
    ∧ (runWorker oracleTTFail stReady [⟨"new-game", []⟩, ⟨"ping", []⟩]).2.map
          (fun x => x.2)
        = [[Event.msg "error message=\"unknown command processing error\""],
           [Event.msg "pong"]] := by decide

/-- C5 (amended): an exception escaping a handler is caught by the worker,
which appends a structured error event and continues with the next queued
command; the catch clauses never write Error into the session status (the
state is left exactly as the handler left it). -/
theorem dispatchFaultRecovery (Pos Mv : Type) (o : Oracle Pos Mv) (st : EngState Pos)
    (c : Command) (rest : List Command) :
    (∀ e, (dispatch o st c).2.2 = some e →
        processCommand o st c
          = ((dispatch o st c).1,
             (dispatch o st c).2.1 ++ [Event.msg (catchErrLine o e)]))
    ∧ (st.status ≠ ScanStatus.error →
        (processCommand o st c).1.status ≠ ScanStatus.error)
    ∧ (st.shouldStop = false →
        (runWorker o st (c :: rest)).2
          = (c, (processCommand o st c).2)
              :: (runWorker o (processCommand o st c).1 rest).2) := by
  refine ⟨?_, ?_, ?_⟩
  · intro e he
    by_cases hn : c.name = ""
    · exfalso
      have hd0 : (dispatch o st c).2.2 = none := by
        unfold dispatch
        rw [hn]
        rfl
      rw [hd0] at he
      exact Option.noConfusion he
    · unfold processCommand
      rw [if_neg hn]
      rcases hd : dispatch o st c with ⟨st1, ev, exc⟩
      rw [hd] at he
      dsimp only at he
      subst he
      rfl
  · intro hs
    rcases processCommand_status o st c with h1 | h1 | h1
    · rw [h1]; exact hs
    · rw [h1]; exact fun h2 => ScanStatus.noConfusion h2
    · rw [h1]; exact fun h2 => ScanStatus.noConfusion h2
  · intro h0
    rw [runWorker_cons o st c rest h0]

/-- C5 witness: the amended theorem at the concrete faulting new-game
dispatch. -/
theorem dispatchFaultRecovery_witness :
    processCommand oracleTTFail stReady ⟨"new-game", []⟩
      = ((dispatch oracleTTFail stReady ⟨"new-game", []⟩).1,
         (dispatch oracleTTFail stReady ⟨"new-game", []⟩).2.1
           ++ [Event.msg (catchErrLine oracleTTFail ExcKind.otherExc)]) :=
  (dispatchFaultRecovery Unit Unit oracleTTFail stReady ⟨"new-game", []⟩ []).1
    ExcKind.otherExc rfl

/-- C6: the worker dequeues and dispatches commands in strict FIFO
submission order — every line accepted by `sendCommand` while the status
is neither Stopped nor Error is dispatched, exactly once, in submission
order (and each command's responses are emitted within its own dispatch,
so responses follow the same order). -/
theorem fifoOrder (Pos Mv : Type) (o : Oracle Pos Mv) (st : EngState Pos)
    (lines : List String)
    (h0 : st.shouldStop = false)
    (h1 : st.status ≠ ScanStatus.stopped)
    (h2 : st.status ≠ ScanStatus.error)
    (h3 : ∀ l ∈ lines, (o.parse l).name ≠ "quit") :
    (runWorker o st ((enqueueAll st.status lines).map o.parse)).2.map Prod.fst
      = (lines.filter fun l => decide (l ≠ "")).map o.parse := by
  rw [enqueueAll_eq_filter st.status h1 h2 lines]
  exact runWorker_noQuit o ((lines.filter fun l => decide (l ≠ "")).map o.parse) st h0
    (fun c hc => by
      rcases List.mem_map.mp hc with ⟨l, hl, rfl⟩
      exact h3 l (List.mem_of_mem_filter hl))

/-- C6 witness: a concrete three-line submission (one of them empty, hence
rejected at submission) dispatched in submission order. -/
theorem fifoOrder_witness :
    (runWorker oracleA stReady
        ((enqueueAll stReady.status ["hub", "", "ping"]).map oracleA.parse)).2.map Prod.fst
      = ((["hub", "", "ping"].filter fun l => decide (l ≠ "")).map oracleA.parse) :=
  fifoOrder Unit Unit oracleA stReady ["hub", "", "ping"] rfl (by decide) (by decide)
    (by decide)

/-- C7: in every state, dispatching `hub` emits exactly one `id` line,
then the parameter catalogue, then a single `wait`, and leaves the session
state unchanged. -/
theorem hubCommandOutput (Pos Mv : Type) (o : Oracle Pos Mv) (st : EngState Pos)
    (pairs : List (String × String)) :
    processCommand o st ⟨"hub", pairs⟩
        = (st, (idLine :: paramLines ++ [waitLine]).map Event.msg)
    ∧ idLine.data.take 2 = "id".data
    ∧ paramLines.all (fun s => s.data.take 5 == "param".data) = true
    ∧ (idLine :: paramLines ++ [waitLine]).countP (fun s => s.data.take 2 == "id".data) = 1
    ∧ waitLine = "wait" :=
  ⟨rfl, by decide, by decide, by decide, rfl⟩

/-- C8: `waitReady` returns a boolean without throwing; it returns true
only when a Ready status is observed, returns false when no observation is
ever Ready (in particular when init was never issued and the deadline
passes), and returns false as soon as Error is observed at a polling
check, ten 100 ms polls per second of timeout. -/
theorem waitReadyBehavior (obs : Nat → ScanStatus) (t : Nat) :
    (waitReadyModel obs t = true → ∃ k, obs k = ScanStatus.ready)
    ∧ ((∀ k, obs k ≠ ScanStatus.ready) → waitReadyModel obs t = false)
    ∧ (obs 0 ≠ ScanStatus.ready → obs 1 = ScanStatus.error → 1 ≤ t →
        waitReadyModel obs t = false) := by
  refine ⟨fun h => waitReadyAux_true obs (t * 10) 0 h,
    fun h => waitReadyAux_never obs h (t * 10) 0, ?_⟩
  intro hnr herr ht
  unfold waitReadyModel
  obtain ⟨m, hm⟩ : ∃ m, t * 10 = m + 1 := ⟨t * 10 - 1, by omega⟩
  rw [hm]
  unfold waitReadyAux
  rw [if_neg hnr]
  rw [if_pos herr]

/-- C8 witness: `waitReady(1)` with the status stuck at Stopped (init
never issued) returns false. -/
theorem waitReady_witness :
    waitReadyModel (fun _ => ScanStatus.stopped) 1 = false :=
  (waitReadyBehavior (fun _ => ScanStatus.stopped) 1).2.1
    (fun _ h => ScanStatus.noConfusion h)

/-- C9 counterexample: when the search throws an exception not derived
from `std::exception`, the go handler's catch does not run and the worker
is left with status Thinking after the go dispatch. -/
theorem goOtherExcLeavesThinking :
    (processCommand oracleSearchCrash stReady ⟨"go", []⟩).1.status = ScanStatus.thinking
    ∧ (runWorker oracleSearchCrash stReady [⟨"go", []⟩, ⟨"ping", []⟩]).2.map Prod.fst
        = [(⟨"go", []⟩ : Command), ⟨"ping", []⟩] := by decide

/-- C9 (amended): a go dispatch ends with status Ready on the normal path
and on the path where the search throws a `std::exception` (the handler's
catch restores Ready); but an exception not derived from `std::exception`
escapes the handler and leaves the status at Thinking. -/
theorem goRestoresReady (Pos Mv : Type) (o : Oracle Pos Mv) (st : EngState Pos)
    (pairs : List (String × String)) :
    ((∃ so, o.search st.pos (goInput pairs) = Except.ok so) →
        (processCommand o st ⟨"go", pairs⟩).1.status = ScanStatus.ready)
    ∧ (∀ e, o.search st.pos (goInput pairs) = Except.error e → e.isStd = true →
        (processCommand o st ⟨"go", pairs⟩).1.status = ScanStatus.ready)
    ∧ (o.search st.pos (goInput pairs) = Except.error ExcKind.otherExc →
        (processCommand o st ⟨"go", pairs⟩).1.status = ScanStatus.thinking) := by
  refine ⟨?_, ?_, ?_⟩
  · rintro ⟨so, hs⟩
    rw [processCommand_go]
    unfold handleGoCommand
    rw [hs]
  · intro e hs hstd
    rw [processCommand_go]
    unfold handleGoCommand
    rw [hs]
    dsimp only
    rw [if_pos hstd]
  · intro hs
    rw [processCommand_go]
    unfold handleGoCommand
    rw [hs]
    rfl

/-- C9 witness: the amended theorem at a concrete successful search. -/
theorem goRestoresReady_witness :
    (processCommand oracleA stReady ⟨"go", []⟩).1.status = ScanStatus.ready :=
  (goRestoresReady Unit Unit oracleA stReady []).1 ⟨⟨none, none⟩, rfl⟩

/-- C10: `scan_stdin_write` returns 0 and performs no write when the
engine is not running; otherwise, for a non-empty payload whose write
succeeds, it writes the payload, appends a newline write exactly when the
payload does not already end in one, and returns 1; a failed write
(result -1) returns 0 with no newline appended. -/
theorem stdinWriteSpec (wr : Int) (data : String) :
    scanStdinWrite wr false data = (0, [])
    ∧ (data ≠ "" → (wr = -1 ∨ 1 ≤ wr) →
        (1 ≤ wr →
            (scanStdinWrite wr true data).1 = 1
            ∧ (scanStdinWrite wr true data).2
              = WriteEvent.dataWrite data ::
                  (if endsWithNl data = true then [] else [WriteEvent.nlWrite]))
        ∧ (wr = -1 → scanStdinWrite wr true data = (0, [WriteEvent.dataWrite data]))) := by
  constructor
  · rfl
  · intro hne hres
    constructor
    · intro hpos
      unfold scanStdinWrite
      rw [if_neg (by simp)]
      refine ⟨?_, ?_⟩
      · dsimp only
        rw [if_pos (by omega : (0 : Int) ≤ wr)]
      · dsimp only
        by_cases hnl : endsWithNl data = true
        · rw [if_pos hnl, if_neg (by simp [hnl])]
        · rw [if_neg hnl]
          rw [if_pos ⟨by omega, by simpa using hnl⟩]
    · intro hneg
      subst hneg
      unfold scanStdinWrite
      rw [if_neg (by simp)]
      rw [if_neg (by omega : ¬(0 : Int) ≤ -1)]
      rw [if_neg (by rintro ⟨hc, _⟩; omega)]

/-- C10 witness: a successful write of `hub` (no trailing newline) returns
1 and appends the newline write. -/
theorem stdinWrite_witness :
    (scanStdinWrite 5 true "hub").1 = 1
    ∧ (scanStdinWrite 5 true "hub").2
      = WriteEvent.dataWrite "hub" ::
          (if endsWithNl "hub" = true then [] else [WriteEvent.nlWrite]) :=
  ((stdinWriteSpec 5 "hub").2 (by decide) (Or.inr (by decide))).1 (by decide)

end DawikkScan
